import Mathlib

/-!
# Verification of the Agent Coordination Layer (`adam_toolkit/agent_protocol.py`)

A shallow embedding of the coordination layer of the repository: the entity
model (messages, service listings, orders, knowledge entries), the keyed
JSON-document stores, and the operations of `AgentNetwork` that the claims
concern (`send_message`, `check_messages`, `publish_service`, `create_order`,
`fulfill_order`, `publish_knowledge`, `endorse_knowledge`, `dispute_knowledge`,
`AgentManifest.match_request`).

Modelling conventions:
* Python `dict`s (insertion ordered, at most one value per key) are modelled as
  association lists (`AList`) with in-place replacement on update and append on
  fresh keys, matching `dict` iteration and update semantics.
* ISO timestamp strings are modelled as rational epoch seconds; Python floats
  and ints are modelled as `ℚ`/`Int`.  Wall-clock reads (`datetime.utcnow()`)
  and generated ids (`uuid.uuid4()`) are nondeterministic inputs, so they are
  threaded through as explicit `now` / fresh-id parameters.
* Opaque JSON payloads (message bodies, order params/results) are modelled as
  string maps / opaque strings; nothing in the verified logic inspects them.
* Python exceptions (`ValueError`) are modelled with `Except NetErr`; an
  operation returns the state holding exactly the writes performed before the
  raise, so partial-write behaviour is preserved.
* Stored documents are produced by `to_dict` and re-read with `from_dict`,
  which is the identity on documents the layer itself wrote; stores therefore
  hold the typed entities directly.
-/

set_option linter.unusedVariables false

namespace AgentProtocol

/-- Errors raised by the layer.  The Python source raises `ValueError` in both
cases; the spec's taxonomy distinguishes the missing-`to_agent` case
(`InvalidArgument`) from unknown-id lookups (`NotFound`). -/
inductive NetErr where
  | invalidArgument : NetErr
  | notFound : NetErr
deriving DecidableEq, Repr

/-- Association list modelling a Python `dict` with `String` keys. -/
abbrev AList (α : Type) := List (String × α)

/-- `d.get(k)`: first (and, for `dict`s, only) binding of `k`. -/
def lookupA {α : Type} (l : AList α) (k : String) : Option α :=
  (l.find? (fun p => p.1 = k)).map (fun p => p.2)

/-- `d[k] = v`: replace the binding in place when the key is present,
append it otherwise (Python `dict`s keep insertion order). -/
def insertA {α : Type} (l : AList α) (k : String) (v : α) : AList α :=
  match l with
  | [] => [(k, v)]
  | (k₀, v₀) :: rest => if k₀ = k then (k, v) :: rest else (k₀, v₀) :: insertA rest k v

/-- Number of bindings of a key (a well-formed `dict` image has at most one). -/
def countKey {α : Type} (l : AList α) (k : String) : Nat :=
  l.countP (fun p => decide (p.1 = k))

/-- Python truthiness of an optional string: `None` and `""` are falsy. -/
def truthy : Option String → Bool
  | none => false
  | some s => s ≠ ""

@[simp] theorem lookupA_nil {α : Type} (k : String) : lookupA ([] : AList α) k = none := rfl

theorem lookupA_insertA_self {α : Type} (l : AList α) (k : String) (v : α) :
    lookupA (insertA l k v) k = some v := by
  induction l with
  | nil => simp [insertA, lookupA, List.find?]
  | cons p rest ih =>
    obtain ⟨a, b⟩ := p
    by_cases h : a = k
    · simp [insertA, h, lookupA, List.find?]
    · simpa [insertA, h, lookupA, List.find?] using ih

theorem lookupA_insertA_ne {α : Type} (l : AList α) (k k' : String) (v : α) (h : k' ≠ k) :
    lookupA (insertA l k v) k' = lookupA l k' := by
  induction l with
  | nil => simp [insertA, lookupA, List.find?, Ne.symm h]
  | cons p rest ih =>
    obtain ⟨a, b⟩ := p
    by_cases hp : a = k
    · subst hp
      simp [insertA, lookupA, List.find?, Ne.symm h]
    · by_cases hp' : a = k'
      · simp [insertA, hp, lookupA, List.find?, hp', h]
      · simpa [insertA, hp, lookupA, List.find?, hp'] using ih

theorem countKey_insertA_absent {α : Type} (l : AList α) (k : String) (v : α)
    (h : lookupA l k = none) : countKey (insertA l k v) k = countKey l k + 1 := by
  induction l with
  | nil => simp [insertA, countKey]
  | cons p rest ih =>
    obtain ⟨a, b⟩ := p
    by_cases hp : a = k
    · exfalso
      simp [lookupA, List.find?, hp] at h
    · have h' : lookupA rest k = none := by
        simpa [lookupA, List.find?, hp] using h
      simpa [insertA, hp, countKey, List.countP_cons] using ih h'

theorem countKey_insertA_present {α : Type} (l : AList α) (k : String) (v : α)
    (h : (lookupA l k).isSome) : countKey (insertA l k v) k = countKey l k := by
  induction l with
  | nil => simp [lookupA] at h
  | cons p rest ih =>
    obtain ⟨a, b⟩ := p
    by_cases hp : a = k
    · simp [insertA, hp, countKey, List.countP_cons]
    · have h' : (lookupA rest k).isSome := by
        simpa [lookupA, List.find?, hp] using h
      simpa [insertA, hp, countKey, List.countP_cons] using ih h'

-- ── Messages (`Message` dataclass) ──────────────────────────────────────────

/-- The `Message` dataclass.  `body` models the arbitrary JSON payload as a
string map whose values may be JSON `null` (`Option.none`). -/
structure Message where
  message_id : String
  from_agent : String
  to_agent : String
  message_type : String
  subject : String
  body : List (String × Option String)
  timestamp : ℚ
  reply_to : String
  ttl_seconds : ℚ
deriving DecidableEq, Repr

/-- `Message.is_expired`: the message's age exceeds its TTL.  (The Python
parse-failure branch returns `False`; timestamps in the model always parse.) -/
def isExpired (now : ℚ) (m : Message) : Bool :=
  decide (now - m.timestamp > m.ttl_seconds)

/-- Store backed by `messages.json`: recipient id → inbox list. -/
abbrev MsgStore := AList (List Message)

/-- `MAX_MESSAGE_QUEUE`. -/
def maxMessageQueue : Nat := 1000

/-- The queue-cap block of `send_message` (lines 617–621): once the inbox has
reached the cap, drop expired messages; if still at or over the cap, keep only
the most recent `cap − 1` entries (`inbox[-MAX_MESSAGE_QUEUE + 1:]`). -/
def enforceQueueLimit (now : ℚ) (inbox : List Message) : List Message :=
  if maxMessageQueue ≤ inbox.length then
    let live := inbox.filter (fun m => !isExpired now m)
    if maxMessageQueue ≤ live.length then live.drop (live.length - (maxMessageQueue - 1))
    else live
  else inbox

/-- `AgentNetwork.send_message`: stamp `from_agent`, require `to_agent`,
enforce the queue cap, append, save.  On the raise path the store is
untouched. -/
def sendMessage (store : MsgStore) (selfId : String) (msg : Message) (now : ℚ) :
    MsgStore × Except NetErr String :=
  let msg := { msg with from_agent := selfId }
  if msg.to_agent = "" then (store, .error .invalidArgument)
  else
    let inbox := (lookupA store msg.to_agent).getD []
    let inbox := enforceQueueLimit now inbox
    (insertA store msg.to_agent (inbox ++ [msg]), .ok msg.message_id)

/-- The inbox scan of `check_messages` (lines 666–685): returns the messages
passing the filters and, in iteration order, the `remaining` list that a
draining call persists.  Expired messages are dropped unconditionally;
messages failing the (truthy) type or sender filter are kept in `remaining`
only when `drain` is set. -/
def filterInbox (mt fa : Option String) (drain : Bool) (now : ℚ) :
    List Message → List Message × List Message
  | [] => ([], [])
  | m :: rest =>
    let r := filterInbox mt fa drain now rest
    if isExpired now m then r
    else if truthy mt && m.message_type ≠ mt.getD "" then
      (r.1, if drain then m :: r.2 else r.2)
    else if truthy fa && m.from_agent ≠ fa.getD "" then
      (r.1, if drain then m :: r.2 else r.2)
    else (m :: r.1, r.2)

/-- `AgentNetwork.check_messages`: scan the caller's inbox; persist the
`remaining` list only when `drain` is set. -/
def checkMessages (store : MsgStore) (selfId : String) (mt fa : Option String)
    (drain : Bool) (now : ℚ) : List Message × MsgStore :=
  let inbox := (lookupA store selfId).getD []
  let (msgs, rem) := filterInbox mt fa drain now inbox
  (msgs, if drain then insertA store selfId rem else store)

-- ── Marketplace (`ServiceListing`, `ServiceOrder`) ──────────────────────────

/-- The `ServiceListing` dataclass. -/
structure ServiceListing where
  service_id : String
  agent_id : String
  name : String
  description : String
  skill_id : String
  action : String
  price : ℚ
  pricing_model : String
  estimated_cost : ℚ
  sla_minutes : Int
  tags : List String
  status : String
  created_at : ℚ
  total_orders : Int
  total_revenue : ℚ
deriving DecidableEq, Repr

/-- The `ServiceOrder` dataclass.  `params`/`result` are opaque JSON payloads;
`completed_at` is the empty string until fulfilment, modelled `Option ℚ`. -/
structure ServiceOrder where
  order_id : String
  service_id : String
  customer_agent_id : String
  provider_agent_id : String
  params : String
  status : String
  result : Option String
  error : Option String
  created_at : ℚ
  completed_at : Option ℚ
  price_paid : ℚ
deriving DecidableEq, Repr

/-- The store partitions touched by the marketplace operations:
`messages.json`, the `"services"` map of `marketplace.json`, and
`orders.json`. -/
structure NetState where
  messages : MsgStore
  services : AList ServiceListing
  orders : AList ServiceOrder
deriving DecidableEq, Repr

/-- `AgentNetwork.publish_service`: force-set `agent_id` to the caller and
store the listing under its `service_id`. -/
def publishService (services : AList ServiceListing) (selfId : String)
    (service : ServiceListing) : AList ServiceListing × ServiceListing :=
  let service := { service with agent_id := selfId }
  (insertA services service.service_id service, service)

/-- The provider notification built by `create_order` (lines 807–816). -/
def orderNotice (listing : ServiceListing) (order : ServiceOrder) (params : String)
    (freshMsgId : String) (now : ℚ) : Message :=
  { message_id := freshMsgId
    from_agent := ""
    to_agent := listing.agent_id
    message_type := "request"
    subject := "New order: " ++ listing.name
    body := [("order_id", some order.order_id), ("service_id", some order.service_id),
             ("params", some params)]
    timestamp := now
    reply_to := ""
    ttl_seconds := 3600 }

/-- `AgentNetwork.create_order`: look the service up (raising `NotFound` when
absent, before any write), snapshot its price into `price_paid`, persist the
pending order, then notify the provider.  A failing notification (empty
provider id) raises after the order write, so the order survives. -/
def createOrder (st : NetState) (selfId : String) (service_id : String) (params : String)
    (freshOrderId freshMsgId : String) (now : ℚ) : NetState × Except NetErr ServiceOrder :=
  match lookupA st.services service_id with
  | none => (st, .error .notFound)
  | some listing =>
    let order : ServiceOrder :=
      { order_id := freshOrderId
        service_id := service_id
        customer_agent_id := selfId
        provider_agent_id := listing.agent_id
        params := params
        status := "pending"
        result := none
        error := none
        created_at := now
        completed_at := none
        price_paid := listing.price }
    let orders' := insertA st.orders order.order_id order
    let sres := sendMessage st.messages selfId (orderNotice listing order params freshMsgId now) now
    ({ st with orders := orders', messages := sres.1 },
     match sres.2 with
     | .ok _ => .ok order
     | .error e => .error e)

/-- The status transition of `fulfill_order` (lines 843–850): `Failed` when
`error` is truthy, `Completed` otherwise, stamping `completed_at`. -/
def completeOrder (order : ServiceOrder) (result error : Option String) (now : ℚ) :
    ServiceOrder :=
  if truthy error then
    { order with status := "failed", error := error, completed_at := some now }
  else
    { order with status := "completed", result := result, completed_at := some now }

/-- The customer notification built by `fulfill_order` (lines 869–879). -/
def fulfillNotice (order_id : String) (order : ServiceOrder) (result error : Option String)
    (freshMsgId : String) (now : ℚ) : Message :=
  { message_id := freshMsgId
    from_agent := ""
    to_agent := order.customer_agent_id
    message_type := "response"
    subject := (if truthy error then "Order failed: " else "Order completed: ") ++ order_id
    body := [("order_id", some order_id), ("status", some order.status),
             ("result", result), ("error", error)]
    timestamp := now
    reply_to := ""
    ttl_seconds := 3600 }

/-- `AgentNetwork.fulfill_order`: unknown ids raise `NotFound` before any
write; otherwise transition the order, bump the listing's counters (only when
the listing is present — an absent listing leaves `marketplace.json`
unwritten), persist the order, and notify the customer. -/
def fulfillOrder (st : NetState) (selfId : String) (order_id : String)
    (result error : Option String) (freshMsgId : String) (now : ℚ) :
    NetState × Except NetErr ServiceOrder :=
  match lookupA st.orders order_id with
  | none => (st, .error .notFound)
  | some order₀ =>
    let order := completeOrder order₀ result error now
    let services' :=
      match lookupA st.services order.service_id with
      | none => st.services
      | some listing =>
        insertA st.services order.service_id
          { listing with
              total_orders := listing.total_orders + 1
              total_revenue := listing.total_revenue +
                (if order.status = "completed" then order.price_paid else 0) }
    let orders' := insertA st.orders order_id order
    let sres :=
      sendMessage st.messages selfId (fulfillNotice order_id order result error freshMsgId now) now
    ({ messages := sres.1, services := services', orders := orders' },
     match sres.2 with
     | .ok _ => .ok order
     | .error e => .error e)

-- ── Knowledge base (`KnowledgeEntry`) ───────────────────────────────────────

/-- The `KnowledgeEntry` dataclass. -/
structure KnowledgeEntry where
  entry_id : String
  content : String
  category : String
  confidence : ℚ
  tags : List String
  published_by : String
  published_at : ℚ
  expires_at : ℚ
  endorsements : List String
  disputes : List String
deriving DecidableEq, Repr

/-- Models the content hash of `KnowledgeEntry.__post_init__`
(`hashlib.sha256(content).hexdigest()[:16]`, an external-library call): the
development uses only that the entry id is a deterministic function of the
content, so the digest itself is modelled abstractly. -/
def contentHash (content : String) : String := content

/-- `KNOWLEDGE_TTL_DAYS` as seconds (`timedelta(days=7)`). -/
def knowledgeTtlSeconds : ℚ := 604800

/-- Construction of a `KnowledgeEntry` through `__post_init__` with the
defaulted fields left empty: the entry id becomes the content hash and the
expiry is publication time plus the fixed TTL. -/
def mkKnowledgeEntry (content category : String) (confidence : ℚ) (tags : List String)
    (now : ℚ) : KnowledgeEntry :=
  { entry_id := contentHash content
    content := content
    category := category
    confidence := confidence
    tags := tags
    published_by := ""
    published_at := now
    expires_at := now + knowledgeTtlSeconds
    endorsements := []
    disputes := [] }

/-- `AgentNetwork.publish_knowledge`: force-set `published_by`; an entry
already stored under the same (content-derived) id is replaced only when the
incoming confidence is strictly higher. -/
def publishKnowledge (ks : AList KnowledgeEntry) (selfId : String)
    (entry : KnowledgeEntry) : AList KnowledgeEntry × KnowledgeEntry :=
  let entry := { entry with published_by := selfId }
  match lookupA ks entry.entry_id with
  | some existing =>
    if entry.confidence > existing.confidence then (insertA ks entry.entry_id entry, entry)
    else (ks, entry)
  | none => (insertA ks entry.entry_id entry, entry)

/-- `AgentNetwork.endorse_knowledge`: `None` (here `Option.none`) signals an
unknown entry id; an agent already in `endorsements` makes the call a no-op;
otherwise the caller is appended and confidence rises by 0.05, capped at 1. -/
def endorseKnowledge (ks : AList KnowledgeEntry) (selfId : String) (entry_id : String) :
    AList KnowledgeEntry × Option KnowledgeEntry :=
  match lookupA ks entry_id with
  | none => (ks, none)
  | some entry =>
    if selfId ∈ entry.endorsements then (ks, some entry)
    else
      let entry := { entry with
        endorsements := entry.endorsements ++ [selfId]
        confidence := min 1 (entry.confidence + 5 / 100) }
      (insertA ks entry_id entry, some entry)

/-- `d.split(":")[0]`: the characters of `d` before its first colon. -/
def beforeColon (d : String) : String :=
  String.mk (d.data.takeWhile (fun c => c ≠ ':'))

/-- `AgentNetwork.dispute_knowledge`: `Option.none` signals an unknown id;
the dispute record is `"agent:reason"` (just the agent id when the reason is
empty); a caller whose id already occurs as a before-colon prefix of a record
makes the call a no-op; otherwise the record is appended and confidence drops
by 0.10, floored at 0. -/
def disputeKnowledge (ks : AList KnowledgeEntry) (selfId : String) (entry_id : String)
    (reason : String) : AList KnowledgeEntry × Option KnowledgeEntry :=
  match lookupA ks entry_id with
  | none => (ks, none)
  | some entry =>
    let record := if reason ≠ "" then selfId ++ ":" ++ reason else selfId
    if selfId ∈ entry.disputes.map beforeColon then (ks, some entry)
    else
      let entry := { entry with
        disputes := entry.disputes ++ [record]
        confidence := max 0 (entry.confidence - 10 / 100) }
      (insertA ks entry_id entry, some entry)

-- ── Capability matcher (`AgentManifest.match_request`) ──────────────────────

/-- The `AgentIdentity` dataclass. -/
structure AgentIdentity where
  agent_id : String
  name : String
  ticker : String
  agent_type : String
  specialty : String
  version : String
deriving DecidableEq, Repr

/-- The `Capability` dataclass (its opaque `parameters` dict is unused by the
matcher and omitted). -/
structure Capability where
  name : String
  description : String
  estimated_cost : ℚ
  tags : List String
deriving DecidableEq, Repr

/-- The `CapabilityGroup` dataclass. -/
structure CapabilityGroup where
  skill_id : String
  name : String
  description : String
  actions : List Capability
  category : String
deriving DecidableEq, Repr

/-- The `AgentManifest` dataclass (the derived `generated_at`/`manifest_hash`
fields play no role in matching and are omitted). -/
structure AgentManifest where
  identity : AgentIdentity
  capabilities : List CapabilityGroup
deriving DecidableEq, Repr

/-- Python `str.lower()` (ASCII case folding, which covers the identifiers and
queries this layer handles). -/
def lowerStr (s : String) : String := String.mk (s.data.map Char.toLower)

/-- Accumulator pass behind `pySplit`: split a character list at whitespace,
discarding empty pieces (`acc` holds the current word reversed). -/
def splitWsAux (acc : List Char) : List Char → List (List Char)
  | [] => if acc = [] then [] else [acc.reverse]
  | c :: cs =>
    if c.isWhitespace then
      if acc = [] then splitWsAux [] cs else acc.reverse :: splitWsAux [] cs
    else splitWsAux (c :: acc) cs

/-- Python `str.split()`: split on whitespace runs, no empty pieces. -/
def pySplit (s : String) : List String := (splitWsAux [] s.data).map String.mk

/-- `name.replace("_", " ")`. -/
def underscoreToSpace (s : String) : String :=
  String.mk (s.data.map (fun c => if c = '_' then ' ' else c))

/-- Does `n` start `hay`? -/
def strStarts : List Char → List Char → Bool
  | [], _ => true
  | _ :: _, [] => false
  | a :: as, b :: bs => a = b && strStarts as bs

/-- Does `n` occur contiguously in `hay`?  (Python `n in hay` on strings.) -/
def strHas (n : List Char) : List Char → Bool
  | [] => n.isEmpty
  | c :: rest => strStarts n (c :: rest) || strHas n rest

/-- Python `needle in hay` for strings. -/
def pyContains (hay needle : String) : Bool := strHas needle.data hay.data

/-- `set(query.lower().split())`, as a duplicate-free list (so its length is
the set's cardinality). -/
def queryWords (query : String) : List String := (pySplit (lowerStr query)).dedup

/-- `desc_words | name_words | tag_words` for one action, as a list whose
membership (and emptiness) agrees with the Python set union. -/
def actionWordSet (a : Capability) : List String :=
  pySplit (lowerStr a.description) ++ pySplit (underscoreToSpace (lowerStr a.name)) ++
    a.tags.map lowerStr

/-- The per-action score of `match_request` before thresholding/clamping:
`|query_words ∩ all_words| / max(|query_words|, 1)`, plus a flat 0.3 when the
lowercased query occurs as a substring of the lowercased action name. -/
def actionScore (query : String) (a : Capability) : ℚ :=
  let qws := queryWords query
  let overlap := (qws.filter (fun w => decide (w ∈ actionWordSet a))).length
  let base : ℚ := (overlap : ℚ) / ((max qws.length 1 : Nat) : ℚ)
  if pyContains (lowerStr a.name) (lowerStr query) then base + 3 / 10 else base

/-- The inner loop of `match_request` over one group's actions: skip actions
with an empty word union, keep an action when its raw score reaches the
threshold, clamping the recorded score to 1. -/
def collectActionMatches (query : String) (threshold : ℚ) (sid : String) :
    List Capability → List (String × String × ℚ)
  | [] => []
  | a :: rest =>
    let tail := collectActionMatches query threshold sid rest
    if actionWordSet a = [] then tail
    else
      let score := actionScore query a
      if threshold ≤ score then (sid, a.name, min score 1) :: tail else tail

/-- The outer loop of `match_request` over all capability groups. -/
def collectMatches (query : String) (threshold : ℚ) :
    List CapabilityGroup → List (String × String × ℚ)
  | [] => []
  | g :: gs =>
    collectActionMatches query threshold g.skill_id g.actions ++ collectMatches query threshold gs

/-- Stable insertion (descending by score): a new element goes after every
element whose score is at least its own. -/
def insertByScore (x : String × String × ℚ) :
    List (String × String × ℚ) → List (String × String × ℚ)
  | [] => [x]
  | y :: ys => if x.2.2 ≤ y.2.2 then y :: insertByScore x ys else x :: y :: ys

/-- `matches.sort(key=lambda x: x[2], reverse=True)`: a stable sort by score
descending (ties keep encounter order, as Python's stable sort does). -/
def sortByScoreDesc (l : List (String × String × ℚ)) : List (String × String × ℚ) :=
  l.foldl (fun acc x => insertByScore x acc) []

/-- `AgentManifest.match_request`, as the source computes it. -/
def matchRequest (m : AgentManifest) (query : String) (threshold : ℚ) :
    List (String × String × ℚ) :=
  sortByScoreDesc (collectMatches query threshold m.capabilities)

/-- Modelled from the claim's words: "exactly the (skill_id, action_name,
score) triples where score = |query words ∩ union| / max(|query words|, 1),
plus a flat 0.3 bonus …, clamped to 1.0, keeping only pairs with score ≥ the
threshold, sorted by score descending with ties in encounter order" — with no
provision for actions whose word union is empty. -/
def matchRequestSpec (m : AgentManifest) (query : String) (threshold : ℚ) :
    List (String × String × ℚ) :=
  sortByScoreDesc
    ((m.capabilities.flatMap (fun g => g.actions.map (fun a => (g.skill_id, a)))).filterMap
      (fun p =>
        let s := min (actionScore query p.2) 1
        if threshold ≤ s then some (p.1, p.2.name, s) else none))

/-- The claim's formula amended with the one clause the code adds: a
(skill, action) pair whose combined word set is empty is never returned. -/
def matchRequestSpecAmended (m : AgentManifest) (query : String) (threshold : ℚ) :
    List (String × String × ℚ) :=
  sortByScoreDesc
    ((m.capabilities.flatMap (fun g => g.actions.map (fun a => (g.skill_id, a)))).filterMap
      (fun p =>
        if actionWordSet p.2 = [] then none
        else
          let s := min (actionScore query p.2) 1
          if threshold ≤ s then some (p.1, p.2.name, s) else none))

-- ── Fixtures and derived definitions used by the theorems ──────────────────

/-- A concrete message used to instantiate the messaging theorems: the caller
set `from_agent` to a forged value and addressed it to `"bob"`. -/
def witnessMsg : Message :=
  { message_id := "m1"
    from_agent := "forged"
    to_agent := "bob"
    message_type := "request"
    subject := "hi"
    body := []
    timestamp := 0
    reply_to := ""
    ttl_seconds := 3600 }

/-- Constructor shorthand for `NetState`, used to write concrete states on one
line inside theorem statements. -/
def mkState (ms : MsgStore) (sv : AList ServiceListing) (od : AList ServiceOrder) :
    NetState :=
  { messages := ms
    services := sv
    orders := od }

/-- A concrete listing, a second version of it at a higher price, and a
pending order on it, used to instantiate the marketplace theorems. -/
def cexListing : ServiceListing :=
  { service_id := "s1"
    agent_id := "prov"
    name := "Code Review"
    description := "review"
    skill_id := "sk"
    action := "review"
    price := 1/10
    pricing_model := "fixed"
    estimated_cost := 1/100
    sla_minutes := 60
    tags := []
    status := "active"
    created_at := 0
    total_orders := 0
    total_revenue := 0 }

def cexListing2 : ServiceListing :=
  { cexListing with price := 2/10 }

def cexOrder : ServiceOrder :=
  { order_id := "o1"
    service_id := "s1"
    customer_agent_id := "cust"
    provider_agent_id := "prov"
    params := ""
    status := "pending"
    result := none
    error := none
    created_at := 0
    completed_at := none
    price_paid := 1/10 }

/-- An order stored with an empty `customer_agent_id` (as left behind when a
session whose identity has an empty `agent_id` creates an order), pointing at
a service id absent from the marketplace. -/
def cexOrderNoCustomer : ServiceOrder :=
  { order_id := "o1"
    service_id := "missing"
    customer_agent_id := ""
    provider_agent_id := "prov"
    params := ""
    status := "pending"
    result := none
    error := none
    created_at := 0
    completed_at := none
    price_paid := 0 }

/-- A concrete stored knowledge entry with no endorsements or disputes yet. -/
def cexEntry : KnowledgeEntry :=
  { entry_id := "e"
    content := "c"
    category := "strategy"
    confidence := 1/2
    tags := []
    published_by := "p"
    published_at := 0
    expires_at := 604800
    endorsements := []
    disputes := [] }

/-- A message fails the (truthy) type filter or the (truthy) sender filter. -/
def failsFilters (mt fa : Option String) (m : Message) : Bool :=
  (truthy mt && m.message_type ≠ mt.getD "") || (truthy fa && m.from_agent ≠ fa.getD "")

/-- A degenerate capability whose tokenized word union is empty — its name is
a lone underscore (turned into a space and discarded by the tokenizer), its
description is empty and it has no tags. -/
def cexAction : Capability :=
  { name := "_"
    description := ""
    estimated_cost := 0
    tags := [] }

def cexIdentity : AgentIdentity :=
  { agent_id := "x"
    name := "x"
    ticker := "X"
    agent_type := "general"
    specialty := ""
    version := "0.1.0" }

/-- A manifest holding only the degenerate action above. -/
def cexManifestDeg : AgentManifest :=
  { identity := cexIdentity
    capabilities := [{ skill_id := "g"
                       name := "n"
                       description := "d"
                       actions := [cexAction]
                       category := "general" }] }

-- ── Helper lemmas ───────────────────────────────────────────────────────────

theorem sendMessage_of_empty_to (store : MsgStore) (selfId : String) (msg : Message)
    (now : ℚ) (h : msg.to_agent = "") :
    sendMessage store selfId msg now = (store, .error .invalidArgument) := by
  simp [sendMessage, h]

theorem sendMessage_of_to_agent (store : MsgStore) (selfId : String) (msg : Message)
    (now : ℚ) (h : msg.to_agent ≠ "") :
    sendMessage store selfId msg now =
      (insertA store msg.to_agent
        (enforceQueueLimit now ((lookupA store msg.to_agent).getD []) ++
          [{ msg with from_agent := selfId }]),
       .ok msg.message_id) := by
  simp [sendMessage, h]

theorem enforceQueueLimit_length_le (now : ℚ) (inbox : List Message) :
    (enforceQueueLimit now inbox).length ≤ maxMessageQueue - 1 := by
  by_cases h1 : maxMessageQueue ≤ inbox.length
  · simp only [enforceQueueLimit, h1, if_true]
    by_cases h2 :
        maxMessageQueue ≤ (inbox.filter (fun m => !isExpired now m)).length
    · simp only [h2, if_true, List.length_drop]
      omega
    · simp only [h2, if_false]
      omega
  · simp only [enforceQueueLimit, h1, if_false]
    omega

-- ── Claim theorems: messaging ───────────────────────────────────────────────

/-- C5: when `to_agent` is set, `send_message` first runs the queue-cap policy
(`enforceQueueLimit`: at or over the cap of 1000, drop expired entries, and if
still at or over the cap keep only the most recent 999) and then appends the
new message, so the newest message is always the last entry of the recipient's
inbox and the inbox length never exceeds 1000 after a send. -/
theorem send_message_queue_bound (store : MsgStore) (selfId : String) (msg : Message)
    (now : ℚ) (h : msg.to_agent ≠ "") :
    (sendMessage store selfId msg now).2 = .ok msg.message_id ∧
    lookupA (sendMessage store selfId msg now).1 msg.to_agent =
      some (enforceQueueLimit now ((lookupA store msg.to_agent).getD []) ++
        [{ msg with from_agent := selfId }]) ∧
    ((lookupA (sendMessage store selfId msg now).1 msg.to_agent).getD []).getLast? =
      some { msg with from_agent := selfId } ∧
    ((lookupA (sendMessage store selfId msg now).1 msg.to_agent).getD []).length ≤
      maxMessageQueue := by
  rw [sendMessage_of_to_agent store selfId msg now h]
  refine ⟨rfl, lookupA_insertA_self _ _ _, ?_, ?_⟩
  · rw [lookupA_insertA_self]
    exact List.getLast?_concat _
  · rw [lookupA_insertA_self]
    simp only [Option.getD_some, List.length_append, List.length_singleton]
    have := enforceQueueLimit_length_le now ((lookupA store msg.to_agent).getD [])
    simp only [maxMessageQueue] at *
    omega

/-- Witness for C5 at a concrete store and message. -/
theorem send_message_queue_bound_witness :
    ((lookupA (sendMessage [] "s" witnessMsg 0).1 "bob").getD []).length ≤ maxMessageQueue :=
  (send_message_queue_bound [] "s" witnessMsg 0 (by decide)).2.2.2

/-- C6: `send_message` raises `InvalidArgument` exactly when the message's
`to_agent` is empty; on that raise the messages store is untouched, and on
success the stored message's `from_agent` is the sending session's agent id
(overwriting whatever the caller set). -/
theorem send_message_to_agent_validation (store : MsgStore) (selfId : String)
    (msg : Message) (now : ℚ) :
    ((sendMessage store selfId msg now).2 = .error .invalidArgument ↔ msg.to_agent = "") ∧
    (msg.to_agent = "" → (sendMessage store selfId msg now).1 = store) ∧
    (msg.to_agent ≠ "" →
      ((lookupA (sendMessage store selfId msg now).1 msg.to_agent).getD []).getLast? =
        some { msg with from_agent := selfId }) := by
  refine ⟨⟨?_, ?_⟩, ?_, ?_⟩
  · intro h
    by_contra hta
    rw [sendMessage_of_to_agent store selfId msg now hta] at h
    exact Except.noConfusion h
  · intro h
    rw [sendMessage_of_empty_to store selfId msg now h]
  · intro h
    rw [sendMessage_of_empty_to store selfId msg now h]
  · intro h
    rw [sendMessage_of_to_agent store selfId msg now h]
    simp only [lookupA_insertA_self, Option.getD_some]
    exact List.getLast?_concat _

/-- Witness for C6 at a concrete store and message. -/
theorem send_message_to_agent_validation_witness :
    ((lookupA (sendMessage [] "sender" witnessMsg 0).1 "bob").getD []).getLast? =
      some { witnessMsg with from_agent := "sender" } :=
  (send_message_to_agent_validation [] "sender" witnessMsg 0).2.2 (by decide)

-- ── Claim theorems: knowledge not-found handling ────────────────────────────

/-- C7: on an entry id absent from the knowledge store, both
`endorse_knowledge` and `dispute_knowledge` signal not-found to the caller
(the Python methods return `None`, modelled `Option.none`) and leave the
knowledge store exactly unchanged. -/
theorem knowledge_feedback_not_found (ks : AList KnowledgeEntry)
    (selfId eid reason : String) (h : lookupA ks eid = none) :
    endorseKnowledge ks selfId eid = (ks, none) ∧
    disputeKnowledge ks selfId eid reason = (ks, none) := by
  constructor
  · simp [endorseKnowledge, h]
  · simp [disputeKnowledge, h]

/-- Witness for C7 at a concrete store and entry id. -/
theorem knowledge_feedback_not_found_witness :
    endorseKnowledge [] "alice" "missing" = ([], none) ∧
    disputeKnowledge [] "alice" "missing" "wrong" = ([], none) :=
  knowledge_feedback_not_found [] "alice" "missing" "wrong" rfl

-- ── Claim theorems: knowledge dedup/merge (C1) ──────────────────────────────

theorem countKey_eq_zero_of_lookupA_none {α : Type} (l : AList α) (k : String)
    (h : lookupA l k = none) : countKey l k = 0 := by
  induction l with
  | nil => rfl
  | cons p rest ih =>
    obtain ⟨a, b⟩ := p
    by_cases hp : a = k
    · exfalso
      simp [lookupA, List.find?, hp] at h
    · have h' : lookupA rest k = none := by
        simpa [lookupA, List.find?, hp] using h
      simpa [countKey, List.countP_cons, hp] using ih h'

theorem publishKnowledge_absent (ks : AList KnowledgeEntry) (selfId : String)
    (entry : KnowledgeEntry) (h : lookupA ks entry.entry_id = none) :
    publishKnowledge ks selfId entry =
      (insertA ks entry.entry_id { entry with published_by := selfId },
       { entry with published_by := selfId }) := by
  simp [publishKnowledge, h]

theorem publishKnowledge_present (ks : AList KnowledgeEntry) (selfId : String)
    (entry existing : KnowledgeEntry) (h : lookupA ks entry.entry_id = some existing) :
    publishKnowledge ks selfId entry =
      (if existing.confidence < entry.confidence then
        insertA ks entry.entry_id { entry with published_by := selfId }
       else ks,
       { entry with published_by := selfId }) := by
  simp only [publishKnowledge, h, gt_iff_lt]
  split <;> rfl

/-- C1: publishing two entries with the same content `C` (hence the same
content-derived `entry_id`) into a store not yet holding that id leaves
exactly one stored entry under the id; the second publish replaces the first
exactly when its confidence is strictly higher, so the stored confidence is
the maximum of the two. -/
theorem publish_knowledge_merges_by_content (ks : AList KnowledgeEntry)
    (a1 a2 C cat1 cat2 : String) (c1 c2 : ℚ) (t1 t2 : List String) (n1 n2 : ℚ)
    (h : lookupA ks (contentHash C) = none) :
    countKey (publishKnowledge (publishKnowledge ks a1 (mkKnowledgeEntry C cat1 c1 t1 n1)).1
        a2 (mkKnowledgeEntry C cat2 c2 t2 n2)).1 (contentHash C) = 1 ∧
    lookupA (publishKnowledge (publishKnowledge ks a1 (mkKnowledgeEntry C cat1 c1 t1 n1)).1
        a2 (mkKnowledgeEntry C cat2 c2 t2 n2)).1 (contentHash C) =
      some (if c1 < c2 then { mkKnowledgeEntry C cat2 c2 t2 n2 with published_by := a2 }
            else { mkKnowledgeEntry C cat1 c1 t1 n1 with published_by := a1 }) ∧
    (lookupA (publishKnowledge (publishKnowledge ks a1 (mkKnowledgeEntry C cat1 c1 t1 n1)).1
        a2 (mkKnowledgeEntry C cat2 c2 t2 n2)).1 (contentHash C)).map
      (fun e => e.confidence) = some (max c1 c2) := by
  have hid1 : (mkKnowledgeEntry C cat1 c1 t1 n1).entry_id = contentHash C := rfl
  have hid2 : (mkKnowledgeEntry C cat2 c2 t2 n2).entry_id = contentHash C := rfl
  have h1 := publishKnowledge_absent ks a1 (mkKnowledgeEntry C cat1 c1 t1 n1) (hid1 ▸ h)
  rw [hid1] at h1
  have hlook : lookupA (publishKnowledge ks a1 (mkKnowledgeEntry C cat1 c1 t1 n1)).1
      (contentHash C) =
      some { mkKnowledgeEntry C cat1 c1 t1 n1 with published_by := a1 } := by
    rw [h1]
    exact lookupA_insertA_self _ _ _
  have hcount1 : countKey (publishKnowledge ks a1 (mkKnowledgeEntry C cat1 c1 t1 n1)).1
      (contentHash C) = 1 := by
    rw [h1, countKey_insertA_absent _ _ _ h, countKey_eq_zero_of_lookupA_none _ _ h]
  have h2 := publishKnowledge_present
    (publishKnowledge ks a1 (mkKnowledgeEntry C cat1 c1 t1 n1)).1 a2
    (mkKnowledgeEntry C cat2 c2 t2 n2)
    { mkKnowledgeEntry C cat1 c1 t1 n1 with published_by := a1 } (hid2 ▸ hlook)
  rw [hid2] at h2
  have hcs : ({ mkKnowledgeEntry C cat1 c1 t1 n1 with published_by := a1 } :
      KnowledgeEntry).confidence = c1 := rfl
  have hcs2 : (mkKnowledgeEntry C cat2 c2 t2 n2).confidence = c2 := rfl
  rw [hcs, hcs2] at h2
  by_cases hc : c1 < c2
  · rw [if_pos hc] at h2
    refine ⟨?_, ?_, ?_⟩
    · rw [h2, countKey_insertA_present, hcount1]
      rw [hlook]
      rfl
    · rw [h2, lookupA_insertA_self, if_pos hc]
      rfl
    · rw [h2, lookupA_insertA_self, max_eq_right hc.le]
      rfl
  · rw [if_neg hc] at h2
    refine ⟨?_, ?_, ?_⟩
    · rw [h2]
      exact hcount1
    · rw [h2, hlook, if_neg hc]
    · rw [h2, hlook, max_eq_left (not_lt.mp hc)]
      rfl

/-- Witness for C1: two publishes of the content `"f"` with confidences
0.5 and 0.75 leave one entry whose confidence is the maximum. -/
theorem publish_knowledge_merges_by_content_witness :
    (lookupA (publishKnowledge (publishKnowledge []
        "a" (mkKnowledgeEntry "f" "strategy" (1/2) [] 0)).1
        "b" (mkKnowledgeEntry "f" "market" (3/4) [] 1)).1 (contentHash "f")).map
      (fun e => e.confidence) = some (max (1/2) (3/4)) :=
  (publish_knowledge_merges_by_content [] "a" "b" "f" "strategy" "market"
    (1/2) (3/4) [] [] 0 1 rfl).2.2

-- ── Claim theorems: check_messages drain semantics (C3) ─────────────────────

theorem filterInbox_fst (mt fa : Option String) (drain : Bool) (now : ℚ)
    (l : List Message) :
    (filterInbox mt fa drain now l).1 =
      l.filter (fun m => !isExpired now m && !failsFilters mt fa m) := by
  induction l with
  | nil => rfl
  | cons m rest ih =>
    by_cases h1 : isExpired now m
    · simp [filterInbox, List.filter_cons, failsFilters, h1, ih]
    · by_cases h2 : truthy mt = true <;> by_cases h3 : m.message_type = mt.getD "" <;>
        by_cases h4 : truthy fa = true <;> by_cases h5 : m.from_agent = fa.getD "" <;>
        simp [filterInbox, List.filter_cons, failsFilters, h1, h2, h3, h4, h5, ih]

theorem filterInbox_snd_drain (mt fa : Option String) (now : ℚ) (l : List Message) :
    (filterInbox mt fa true now l).2 =
      l.filter (fun m => !isExpired now m && failsFilters mt fa m) := by
  induction l with
  | nil => rfl
  | cons m rest ih =>
    by_cases h1 : isExpired now m
    · simp [filterInbox, List.filter_cons, failsFilters, h1, ih]
    · by_cases h2 : truthy mt = true <;> by_cases h3 : m.message_type = mt.getD "" <;>
        by_cases h4 : truthy fa = true <;> by_cases h5 : m.from_agent = fa.getD "" <;>
        simp [filterInbox, List.filter_cons, failsFilters, h1, h2, h3, h4, h5, ih]

/-- C3: a draining `check_messages` followed by a second call with the same
filters returns nothing the second time (everything the drain preserved fails
the same filters again), while `drain=false` leaves the persisted messages
store exactly as it was, so repeated non-draining calls return the same
result. -/
theorem check_messages_drain_semantics (store : MsgStore) (selfId : String)
    (mt fa : Option String) (now : ℚ) :
    (checkMessages ((checkMessages store selfId mt fa true now).2) selfId mt fa true now).1
      = [] ∧
    (checkMessages store selfId mt fa false now).2 = store ∧
    (checkMessages ((checkMessages store selfId mt fa false now).2) selfId mt fa
      false now).1 = (checkMessages store selfId mt fa false now).1 := by
  refine ⟨?_, rfl, rfl⟩
  simp only [checkMessages]
  rw [if_pos trivial, lookupA_insertA_self]
  simp only [Option.getD_some]
  rw [filterInbox_fst, filterInbox_snd_drain]
  apply List.filter_eq_nil_iff.2
  intro a ha
  have hmem := (List.mem_filter.1 ha).2
  have hfail : failsFilters mt fa a = true := by
    simp only [Bool.and_eq_true] at hmem
    exact hmem.2
  simp [hfail]

-- ── Claim theorems: marketplace (C2, C4) ────────────────────────────────────

theorem completeOrder_service_id (o : ServiceOrder) (r e : Option String) (n : ℚ) :
    (completeOrder o r e n).service_id = o.service_id := by
  by_cases he : truthy e = true <;> simp [completeOrder, he]

theorem completeOrder_price_paid (o : ServiceOrder) (r e : Option String) (n : ℚ) :
    (completeOrder o r e n).price_paid = o.price_paid := by
  by_cases he : truthy e = true <;> simp [completeOrder, he]

theorem completeOrder_customer (o : ServiceOrder) (r e : Option String) (n : ℚ) :
    (completeOrder o r e n).customer_agent_id = o.customer_agent_id := by
  by_cases he : truthy e = true <;> simp [completeOrder, he]

/-- C2: an order snapshots the listing's price at creation into `price_paid`,
and neither a later `publish_service` republishing the listing at another
price nor `fulfill_order` changes it: after the whole
publish → order → republish → fulfill sequence the stored order still carries
the original price. -/
theorem order_price_paid_snapshot (st st1 st2 st3 st4 : NetState) (a b : String)
    (listing listing2 : ServiceListing) (params foid mid1 fid2 res : String)
    (n2 n4 : ℚ)
    (e1 : st1 = { st with services := (publishService st.services a listing).1 })
    (e2 : st2 = (createOrder st1 b listing.service_id params foid mid1 n2).1)
    (e3 : st3 = { st2 with services := (publishService st2.services a listing2).1 })
    (e4 : st4 = (fulfillOrder st3 a foid (some res) none fid2 n4).1) :
    (lookupA st2.orders foid).map (fun o => o.price_paid) = some listing.price ∧
    (lookupA st4.orders foid).map (fun o => o.price_paid) = some listing.price := by
  subst e1 e2 e3 e4
  have hkey : ({ listing with agent_id := a } : ServiceListing).service_id =
      listing.service_id := rfl
  have hlook1 : lookupA (publishService st.services a listing).1 listing.service_id =
      some { listing with agent_id := a } := by
    simp only [publishService, hkey, lookupA_insertA_self]
  constructor
  · simp [createOrder, hlook1, lookupA_insertA_self]
  · simp [createOrder, fulfillOrder, completeOrder, truthy, hlook1, lookupA_insertA_self]

/-- Witness for C2 with two concrete listings sharing a service id but
priced differently. -/
theorem order_price_paid_snapshot_witness :
    (lookupA ((createOrder (mkState []
        (publishService ([] : AList ServiceListing) "prov" cexListing).1 [])
        "cust" cexListing.service_id "" "o1" "m1" 0).1).orders "o1").map
      (fun o => o.price_paid) = some cexListing.price :=
  (order_price_paid_snapshot (mkState [] [] []) _ _ _ _
    "prov" "cust" cexListing cexListing2 "" "o1" "m1" "m2" "done" 0 1
    rfl rfl rfl rfl).1

/-- C4: when the fulfilled order's listing is present, `fulfill_order` bumps
that listing's `total_orders` by exactly one on both outcomes, adds
`price_paid` to `total_revenue` exactly on the completed outcome, and changes
nothing else in the services map. -/
theorem fulfill_order_updates_listing_stats (st : NetState) (selfId oid fid : String)
    (result error : Option String) (now : ℚ) (order : ServiceOrder)
    (listing : ServiceListing)
    (h1 : lookupA st.orders oid = some order)
    (h2 : lookupA st.services order.service_id = some listing) :
    (fulfillOrder st selfId oid result error fid now).1.services =
      insertA st.services order.service_id
        { listing with
            total_orders := listing.total_orders + 1
            total_revenue := listing.total_revenue +
              (if truthy error then 0 else order.price_paid) } := by
  by_cases he : truthy error = true
  · simp [fulfillOrder, h1, completeOrder, he, h2]
  · simp [fulfillOrder, h1, completeOrder, he, h2]

/-- Witness for C4: completing the concrete order bumps the listing's
counters. -/
theorem fulfill_order_updates_listing_stats_witness :
    (fulfillOrder (mkState [] [("s1", cexListing)] [("o1", cexOrder)])
        "prov" "o1" (some "done") none "m1" 1).1.services =
      insertA [("s1", cexListing)] "s1"
        { cexListing with total_orders := 1, total_revenue := 0 + (1/10 : ℚ) } := by
  have := fulfill_order_updates_listing_stats
    (mkState [] [("s1", cexListing)] [("o1", cexOrder)])
    "prov" "o1" "m1" (some "done") none 1 cexOrder cexListing rfl rfl
  simpa [cexOrder, cexListing, truthy, mkState] using this

-- ── Claim theorems: fulfill_order with a missing listing (C10) ──────────────

/-- Counterexample to C10 as stated: for this existing order whose service id
is absent from the marketplace, `fulfill_order` *does* fail — the customer
notification's `send_message` raises because the order's `customer_agent_id`
is empty — so "fulfill_order does not fail" is not true of every existing
order. -/
theorem fulfill_missing_listing_cex :
    lookupA (mkState [] [] [("o1", cexOrderNoCustomer)]).orders "o1" =
      some cexOrderNoCustomer ∧
    lookupA (mkState [] [] [("o1", cexOrderNoCustomer)]).services
      cexOrderNoCustomer.service_id = none ∧
    (fulfillOrder (mkState [] [] [("o1", cexOrderNoCustomer)]) "prov" "o1"
      (some "done") none "m1" 1).2 = .error .invalidArgument := by
  refine ⟨rfl, rfl, ?_⟩
  rfl

/-- C10 (amended with the nonempty-customer condition the counterexample
forces): for an existing order with a nonempty `customer_agent_id` whose
service id is absent from the marketplace, `fulfill_order` succeeds, the
marketplace store is left exactly unchanged, the order is transitioned to its
terminal status with `completed_at` stamped and persisted, and the customer
notification lands at the end of the customer's inbox. -/
theorem fulfill_missing_listing_frame (st : NetState) (selfId oid fid : String)
    (result error : Option String) (now : ℚ) (order : ServiceOrder)
    (h1 : lookupA st.orders oid = some order)
    (h2 : lookupA st.services order.service_id = none)
    (h3 : order.customer_agent_id ≠ "") :
    (fulfillOrder st selfId oid result error fid now).2 =
      .ok (completeOrder order result error now) ∧
    (fulfillOrder st selfId oid result error fid now).1.services = st.services ∧
    (fulfillOrder st selfId oid result error fid now).1.orders =
      insertA st.orders oid (completeOrder order result error now) ∧
    (completeOrder order result error now).completed_at = some now ∧
    (completeOrder order result error now).status =
      (if truthy error then "failed" else "completed") ∧
    ((lookupA (fulfillOrder st selfId oid result error fid now).1.messages
        order.customer_agent_id).getD []).getLast? =
      some { fulfillNotice oid (completeOrder order result error now) result error fid now
              with from_agent := selfId } := by
  have hkey : (fulfillNotice oid (completeOrder order result error now) result error
      fid now).to_agent = order.customer_agent_id := by
    show (completeOrder order result error now).customer_agent_id = _
    exact completeOrder_customer order result error now
  have hto : (fulfillNotice oid (completeOrder order result error now) result error
      fid now).to_agent ≠ "" := by
    rw [hkey]
    exact h3
  have hsend := sendMessage_of_to_agent st.messages selfId
    (fulfillNotice oid (completeOrder order result error now) result error fid now) now hto
  have hmain : fulfillOrder st selfId oid result error fid now =
      ({ messages := insertA st.messages order.customer_agent_id
           (enforceQueueLimit now ((lookupA st.messages order.customer_agent_id).getD [])
             ++ [{ fulfillNotice oid (completeOrder order result error now) result error
                    fid now with from_agent := selfId }])
         services := st.services
         orders := insertA st.orders oid (completeOrder order result error now) },
       .ok (completeOrder order result error now)) := by
    rw [hkey] at hsend
    simp only [fulfillOrder, h1, completeOrder_service_id, h2, hsend]
    rw [hkey]
  refine ⟨?_, ?_, ?_, ?_, ?_, ?_⟩
  · rw [hmain]
  · rw [hmain]
  · rw [hmain]
  · by_cases he : truthy error = true <;> simp [completeOrder, he]
  · by_cases he : truthy error = true <;> simp [completeOrder, he]
  · rw [hmain]
    simp only [lookupA_insertA_self, Option.getD_some]
    exact List.getLast?_concat _

/-- Witness for C10's amended theorem: fulfilling the concrete order whose
listing is gone succeeds and leaves the (empty) services map untouched. -/
theorem fulfill_missing_listing_frame_witness :
    (fulfillOrder (mkState [] [] [("o1", cexOrder)]) "prov" "o1" (some "ok") none
      "m1" 1).1.services = [] :=
  (fulfill_missing_listing_frame (mkState [] [] [("o1", cexOrder)]) "prov" "o1" "m1"
    (some "ok") none 1 cexOrder rfl rfl (by decide)).2.1

-- ── Claim theorems: endorse/dispute once per agent (C9) ─────────────────────

theorem takeWhile_no_colon (l : List Char) (h : ':' ∉ l) :
    l.takeWhile (fun c => decide (c ≠ ':')) = l := by
  induction l with
  | nil => rfl
  | cons c cs ih =>
    have hc : c ≠ ':' := by
      intro e
      exact h (e ▸ List.mem_cons_self c cs)
    have h' : ':' ∉ cs := fun hm => h (List.mem_cons_of_mem c hm)
    rw [List.takeWhile_cons_of_pos (by simpa using hc), ih h']

theorem takeWhile_append_colon (l r : List Char) (h : ':' ∉ l) :
    (l ++ ':' :: r).takeWhile (fun c => decide (c ≠ ':')) = l := by
  induction l with
  | nil =>
    rw [List.nil_append, List.takeWhile_cons_of_neg (by simp)]
  | cons c cs ih =>
    have hc : c ≠ ':' := by
      intro e
      exact h (e ▸ List.mem_cons_self c cs)
    have h' : ':' ∉ cs := fun hm => h (List.mem_cons_of_mem c hm)
    rw [List.cons_append, List.takeWhile_cons_of_pos (by simpa using hc), ih h']

theorem beforeColon_self (s : String) (h : ':' ∉ s.data) : beforeColon s = s := by
  unfold beforeColon
  rw [takeWhile_no_colon _ h]

theorem beforeColon_append (s r : String) (h : ':' ∉ s.data) :
    beforeColon (s ++ ":" ++ r) = s := by
  unfold beforeColon
  have hdata : (s ++ ":" ++ r).data = s.data ++ ':' :: r.data := by
    rw [String.data_append, String.data_append]
    simp
  rw [hdata, takeWhile_append_colon _ _ h]

theorem beforeColon_record (selfId reason : String) (h : ':' ∉ selfId.data) :
    beforeColon (if reason ≠ "" then selfId ++ ":" ++ reason else selfId) = selfId := by
  by_cases hr : reason = ""
  · simp [hr, beforeColon_self selfId h]
  · simp [hr, beforeColon_append selfId reason h]

/-- C9 (amended): a second `endorse_knowledge` by the same agent is a no-op,
and on a fresh agent the endorsements grow by exactly one with confidence
raised by 0.05 (capped at 1); a second `dispute_knowledge` by the same agent
— with *any* second reason `reason2`, not merely a repeat of the first — is a
no-op *provided the agent's id contains no colon*: the guard compares ids
against the substring of each record before its first `:`, so it fires on the
agent-id prefix regardless of the reasons involved. -/
theorem endorse_dispute_idempotent (ks : AList KnowledgeEntry)
    (selfId eid reason reason2 : String) (entry : KnowledgeEntry)
    (h : lookupA ks eid = some entry) :
    ((endorseKnowledge (endorseKnowledge ks selfId eid).1 selfId eid).1 =
      (endorseKnowledge ks selfId eid).1) ∧
    (selfId ∉ entry.endorsements →
      (lookupA (endorseKnowledge ks selfId eid).1 eid).map
          (fun e => e.endorsements.length) = some (entry.endorsements.length + 1) ∧
      (lookupA (endorseKnowledge ks selfId eid).1 eid).map (fun e => e.confidence) =
        some (min 1 (entry.confidence + 5 / 100))) ∧
    (':' ∉ selfId.data →
      (disputeKnowledge (disputeKnowledge ks selfId eid reason).1 selfId eid reason2).1 =
        (disputeKnowledge ks selfId eid reason).1) := by
  refine ⟨?_, ?_, ?_⟩
  · by_cases hm : selfId ∈ entry.endorsements
    · have e1 : endorseKnowledge ks selfId eid = (ks, some entry) := by
        simp [endorseKnowledge, h, hm]
      rw [e1]
      rw [e1]
    · have e1 : endorseKnowledge ks selfId eid =
          (insertA ks eid { entry with
            endorsements := entry.endorsements ++ [selfId]
            confidence := min 1 (entry.confidence + 5 / 100) },
           some { entry with
            endorsements := entry.endorsements ++ [selfId]
            confidence := min 1 (entry.confidence + 5 / 100) }) := by
        simp [endorseKnowledge, h, hm]
      have hm2 : selfId ∈ ({ entry with
          endorsements := entry.endorsements ++ [selfId]
          confidence := min 1 (entry.confidence + 5 / 100) } :
            KnowledgeEntry).endorsements := by
        simp
      rw [e1]
      simp [endorseKnowledge, lookupA_insertA_self, hm2]
  · intro hm
    have e1 : endorseKnowledge ks selfId eid =
        (insertA ks eid { entry with
          endorsements := entry.endorsements ++ [selfId]
          confidence := min 1 (entry.confidence + 5 / 100) },
         some { entry with
          endorsements := entry.endorsements ++ [selfId]
          confidence := min 1 (entry.confidence + 5 / 100) }) := by
      simp [endorseKnowledge, h, hm]
    rw [e1]
    simp [lookupA_insertA_self]
  · intro hcolon
    by_cases hm : selfId ∈ entry.disputes.map beforeColon
    · have d1 : disputeKnowledge ks selfId eid reason = (ks, some entry) := by
        simp [disputeKnowledge, h, hm]
      have d2 : disputeKnowledge ks selfId eid reason2 = (ks, some entry) := by
        simp [disputeKnowledge, h, hm]
      rw [d1]
      simp [d2]
    · have hbc : beforeColon (if reason = "" then selfId
          else selfId ++ ":" ++ reason) = selfId := by
        by_cases hr : reason = ""
        · simp [hr, beforeColon_self selfId hcolon]
        · simp [hr, beforeColon_append selfId reason hcolon]
      have d1 : disputeKnowledge ks selfId eid reason =
          (insertA ks eid { entry with
            disputes := entry.disputes ++
              [if reason ≠ "" then selfId ++ ":" ++ reason else selfId]
            confidence := max 0 (entry.confidence - 10 / 100) },
           some { entry with
            disputes := entry.disputes ++
              [if reason ≠ "" then selfId ++ ":" ++ reason else selfId]
            confidence := max 0 (entry.confidence - 10 / 100) }) := by
        simp [disputeKnowledge, h, hm]
      rw [d1]
      simp [disputeKnowledge, lookupA_insertA_self, hbc]

/-- Counterexample to C9 as stated: the agent id `"a:b"` contains a colon, so
its dispute record `"a:b:r"` has before-colon prefix `"a"`; the guard misses
it and a second dispute by the same agent is appended again — the second call
is not a no-op and the disputes list reaches length 2. -/
theorem dispute_twice_colon_cex :
    lookupA [("e", cexEntry)] "e" = some cexEntry ∧
    (lookupA (disputeKnowledge [("e", cexEntry)] "a:b" "e" "r").1 "e").map
      (fun e => e.disputes.length) = some 1 ∧
    (lookupA (disputeKnowledge (disputeKnowledge [("e", cexEntry)] "a:b" "e" "r").1
        "a:b" "e" "r").1 "e").map (fun e => e.disputes.length) = some 2 := by
  refine ⟨rfl, rfl, rfl⟩

/-- Witness for C9's amended theorem with the colon-free agent `"alice"`,
whose second dispute gives a *different* reason than the first. -/
theorem endorse_dispute_idempotent_witness :
    ((endorseKnowledge (endorseKnowledge [("e", cexEntry)] "alice" "e").1
        "alice" "e").1 = (endorseKnowledge [("e", cexEntry)] "alice" "e").1) ∧
    ((disputeKnowledge (disputeKnowledge [("e", cexEntry)] "alice" "e" "stale").1
        "alice" "e" "wrong").1 =
      (disputeKnowledge [("e", cexEntry)] "alice" "e" "stale").1) :=
  ⟨(endorse_dispute_idempotent [("e", cexEntry)] "alice" "e" "stale" "wrong" cexEntry
      rfl).1,
   (endorse_dispute_idempotent [("e", cexEntry)] "alice" "e" "stale" "wrong" cexEntry
      rfl).2.2 (by decide)⟩

-- ── Claim theorems: capability matcher (C8) ─────────────────────────────────

theorem collectActionMatches_eq (q : String) (t : ℚ) (ht : t ≤ 1) (sid : String)
    (acts : List Capability) :
    collectActionMatches q t sid acts = acts.filterMap (fun a =>
      if actionWordSet a = [] then none
      else if t ≤ min (actionScore q a) 1 then some (sid, a.name, min (actionScore q a) 1)
      else none) := by
  induction acts with
  | nil => rfl
  | cons a rest ih =>
    rw [List.filterMap_cons]
    by_cases he : actionWordSet a = []
    · simp [collectActionMatches, he, ih]
    · by_cases hs : t ≤ actionScore q a
      · have hmin : t ≤ min (actionScore q a) 1 := le_min hs ht
        simp [collectActionMatches, he, hs, hmin, ih]
      · have hmin : ¬t ≤ min (actionScore q a) 1 :=
          fun hc => hs (le_trans hc (min_le_left _ _))
        simp [collectActionMatches, he, hs, hmin, ih]

theorem collectMatches_eq (q : String) (t : ℚ) (ht : t ≤ 1)
    (gs : List CapabilityGroup) :
    collectMatches q t gs =
      (gs.flatMap (fun g => g.actions.map (fun a => (g.skill_id, a)))).filterMap
        (fun p =>
          if actionWordSet p.2 = [] then none
          else if t ≤ min (actionScore q p.2) 1 then
            some (p.1, p.2.name, min (actionScore q p.2) 1)
          else none) := by
  induction gs with
  | nil => rfl
  | cons g rest ih =>
    rw [List.flatMap_cons, List.filterMap_append, List.filterMap_map]
    show collectActionMatches q t g.skill_id g.actions ++ collectMatches q t rest = _
    rw [ih, collectActionMatches_eq q t ht]
    rfl

/-- C8 (amended with the one clause the counterexample forces): for any
threshold at most 1 (the default is 0.3), `match_request` returns exactly the
triples of the claim's formula — score `|query ∩ union| / max(|query|, 1)`
plus the 0.3 substring bonus, clamped to 1, thresholded, stably sorted by
score descending — *except* that an action whose combined word set is empty
is never returned. -/
theorem match_request_spec_equiv (m : AgentManifest) (q : String) (t : ℚ)
    (ht : t ≤ 1) :
    matchRequest m q t = matchRequestSpecAmended m q t := by
  unfold matchRequest matchRequestSpecAmended
  rw [collectMatches_eq q t ht]

/-- Witness for C8's amended theorem at the default threshold 0.3. -/
theorem match_request_spec_equiv_witness :
    matchRequest cexManifestDeg "_" (3/10) =
      matchRequestSpecAmended cexManifestDeg "_" (3/10) :=
  match_request_spec_equiv cexManifestDeg "_" (3/10) (by norm_num)

/-- Counterexample to C8 as stated: on the degenerate action named `"_"` with
empty description and tags, the query `"_"` earns the 0.3 substring bonus, so
the claim's formula keeps the pair with score exactly 0.3 — but the code
skips any action whose combined word set is empty and returns nothing. -/
theorem match_request_formula_cex :
    matchRequest cexManifestDeg "_" (3/10) = [] ∧
    matchRequestSpec cexManifestDeg "_" (3/10) = [("g", "_", 3/10)] := by
  constructor
  · rfl
  · have hw : actionWordSet cexAction = [] := by decide
    have hq : queryWords "_" = ["_"] := by decide
    have hc : pyContains (lowerStr cexAction.name) (lowerStr "_") = true := by decide
    have hscore : actionScore "_" cexAction = 3/10 := by
      rw [actionScore]
      rw [hq, hc]
      simp [hw]
    have hmin : min ((3:ℚ)/10) 1 = 3/10 := min_eq_left (by norm_num)
    have hflat : cexManifestDeg.capabilities.flatMap
        (fun g => g.actions.map (fun a => (g.skill_id, a))) = [("g", cexAction)] := rfl
    rw [matchRequestSpec, hflat, List.filterMap_cons]
    simp only [hscore, hmin, List.filterMap_nil]
    rw [if_pos (le_refl ((3:ℚ)/10))]
    rfl

end AgentProtocol
